import Mathlib

/-!
Verification of the product-catalog domain core of the `nestjs-hex-poc-ia`
repository: the `Product` entity, the `Price` and `ProductCode` value
objects, and the Create/Update/UpdateStock use cases, shallowly embedded
in Lean.

JavaScript strings are embedded as `List Char`; JavaScript `number` is
embedded as `ℚ` where only finite values occur, and as the `JSNum` type
where NaN/Infinity are observable (`Price.create`).  Each `throw new
Error(...)` site in the source is mapped to a distinct `JsTag`
constructor (tag names follow the thrown message), so that generic
`Error` values thrown at different sites stay distinguishable while the
dedicated domain-error classes (`ProductNotFoundError`,
`DuplicateProductCodeError`, `InvalidProductDataError`,
`InsufficientStockError`) map to their own `DomainErr` constructors,
mirroring `instanceof` discrimination in the TypeScript code.
-/

instance {ε α : Type} [DecidableEq ε] [DecidableEq α] :
    DecidableEq (Except ε α)
  | .ok a, .ok b =>
      if h : a = b then .isTrue (by rw [h])
      else .isFalse (by intro hh; cases hh; exact h rfl)
  | .ok _, .error _ => .isFalse (by intro h; cases h)
  | .error _, .ok _ => .isFalse (by intro h; cases h)
  | .error e, .error f =>
      if h : e = f then .isTrue (by rw [h])
      else .isFalse (by intro hh; cases hh; exact h rfl)

/-! ## JavaScript string primitives -/

/-- JS strings, embedded as lists of characters. -/
abbrev Str := List Char

/-- Coerce a Lean string literal into the embedding. -/
def str (s : String) : Str := s.data

/-- Whitespace characters recognised by `String.prototype.trim` (ASCII
fragment; only these occur in the sources and inputs considered). -/
def jsIsWs (c : Char) : Bool :=
  c = ' ' || c = '\t' || c = '\n' || c = '\r'

/-- Model of `String.prototype.trim`: drop leading and trailing whitespace. -/
def jsTrim (l : Str) : Str :=
  ((l.dropWhile jsIsWs).reverse.dropWhile jsIsWs).reverse

/-- Model of `String.prototype.toUpperCase` on one character (ASCII fragment). -/
def jsCharUpper (c : Char) : Char :=
  if 97 ≤ c.toNat ∧ c.toNat ≤ 122 then Char.ofNat (c.toNat - 32) else c

/-- Model of `String.prototype.toUpperCase` (ASCII fragment). -/
def jsToUpper (l : Str) : Str := l.map jsCharUpper

/-- Character class `[A-Z0-9]` used by the `ProductCode` regexes. -/
def isUpperAlnum (c : Char) : Bool :=
  (65 ≤ c.toNat && c.toNat ≤ 90) || (48 ≤ c.toNat && c.toNat ≤ 57)

/-- Decimal digit `[0-9]`. -/
def isDigitCh (c : Char) : Bool := 48 ≤ c.toNat && c.toNat ≤ 57

/-- Decimal digits, fuelled so the recursion is structural (the kernel
can then evaluate it); `natDigits` supplies enough fuel for any input. -/
def natDigitsAux : Nat → Nat → Str
  | 0, _ => []
  | fuel + 1, n =>
      if n < 10 then [Char.ofNat (48 + n)]
      else natDigitsAux fuel (n / 10) ++ [Char.ofNat (48 + n % 10)]

/-- Decimal digits of a natural number, most significant first
(`Number.prototype.toString` for a non-negative integer). -/
def natDigits (n : Nat) : Str := natDigitsAux (n + 1) n

/-- Model of `String.prototype.padStart(n, c)`. -/
def padStart (n : Nat) (c : Char) (l : Str) : Str :=
  List.replicate (n - l.length) c ++ l

/-- Model of `String.prototype.padEnd(n, c)`. -/
def padEnd (n : Nat) (c : Char) (l : Str) : Str :=
  l ++ List.replicate (n - l.length) c

/-- Value of a list of decimal digits, most significant first. -/
def digitsVal (l : Str) : Nat :=
  l.foldl (fun acc c => 10 * acc + (c.toNat - 48)) 0

/-- Model of `parseInt(s, 10)` restricted to the strings it is applied to here
(no sign, no leading whitespace): parse the longest digit prefix;
`none` models the `NaN` result when there is no digit prefix. -/
def jsParseInt (l : Str) : Option Nat :=
  let ds := l.takeWhile isDigitCh
  if ds.isEmpty then none else some (digitsVal ds)

/-! ## Domain errors

`JsTag` enumerates the `throw new Error(message)` sites of the domain
core, named after their messages; `DomainErr` mirrors the error class
hierarchy (`instanceof` distinguishes its constructors). -/

inductive JsTag where
  | productNameEmpty          -- 'Product name cannot be empty'
  | productPriceNegative      -- 'Product price cannot be negative'
  | productStockNegative      -- 'Product stock cannot be negative'
  | productSkuEmpty           -- 'Product SKU cannot be empty'
  | stockIncrementNotPositive -- 'Stock increment amount must be positive'
  | stockDecrementNotPositive -- 'Stock decrement amount must be positive'
  | insufficientStockMsg      -- 'Insufficient stock'
  | categoryIdEmpty           -- 'Category ID cannot be empty'
  | codeTooShort              -- 'Product code is too short. ...'
  | codeTooLong               -- 'Product code is too long. ...'
  | codeInvalidFormat         -- 'Invalid product code format. ...'
  | prefixInvalidFormat       -- 'Invalid prefix format. ...'
  | suffixInvalidFormat       -- 'Invalid suffix format. ...'
  | categoryCannotBeEmpty     -- 'Category cannot be empty'
  | sequenceNegative          -- 'Sequence number cannot be negative'
  | sequenceTooLarge          -- 'Sequence number cannot exceed 999999'
  | previousAtZero            -- 'Cannot get previous code for sequence 0'
  | invalidCurrency           -- 'Invalid currency: ...'
  | priceAmountNegative       -- 'Price amount cannot be negative. ...'
  | priceAmountNotFinite      -- 'Price amount must be a valid number. ...'
  | notFoundAfterUpdate       -- 'Product with id ... not found after update'
  deriving DecidableEq

inductive DomainErr where
  /-- A plain `new Error(message)`, tagged by its throw site. -/
  | jsError (tag : JsTag)
  /-- Class `ProductNotFoundError(identifier, identifierType)`. -/
  | productNotFound (identifier : Str)
  /-- Class `DuplicateProductCodeError(code)`. -/
  | duplicateProductCode (code : Str)
  /-- Class `InvalidProductDataError.forNegativeValue(field, value)`. -/
  | invalidProductDataNegative (field : Str) (value : Int)
  /-- Class `InsufficientStockError(productId, requestedQuantity, availableStock)`. -/
  | insufficientStock (productId : Str) (requested available : Int)
  deriving DecidableEq

/-! ## `Product` entity (src/domain/entities/product.entity.ts)

`new Date()` is embedded by threading an explicit `now : Int` timestamp
into every operation that stamps a date. -/

structure Product where
  id : Str
  name : Str
  description : Str
  price : ℚ
  stock : Int
  sku : Str
  categoryId : Str
  isActive : Bool
  createdAt : Int
  updatedAt : Int
  deriving DecidableEq

namespace Product

def create (id name description : Str) (price : ℚ) (stock : Int)
    (sku categoryId : Str) (now : Int) : Except DomainErr Product :=
  if name.isEmpty || (jsTrim name).isEmpty then
    .error (.jsError .productNameEmpty)
  else if price < 0 then
    .error (.jsError .productPriceNegative)
  else if stock < 0 then
    .error (.jsError .productStockNegative)
  else if sku.isEmpty || (jsTrim sku).isEmpty then
    .error (.jsError .productSkuEmpty)
  else
    .ok { id := id
          name := jsTrim name
          description := jsTrim description
          price := price
          stock := stock
          sku := jsToUpper (jsTrim sku)
          categoryId := categoryId
          isActive := true
          createdAt := now
          updatedAt := now }

def createFromPersistence (schema : Product) : Product := schema

def updateName (p : Product) (newName : Str) (now : Int) :
    Except DomainErr Product :=
  if newName.isEmpty || (jsTrim newName).isEmpty then
    .error (.jsError .productNameEmpty)
  else
    .ok { p with name := jsTrim newName, updatedAt := now }

def updateDescription (p : Product) (newDescription : Str) (now : Int) :
    Except DomainErr Product :=
  .ok { p with description := jsTrim newDescription, updatedAt := now }

def updatePrice (p : Product) (newPrice : ℚ) (now : Int) :
    Except DomainErr Product :=
  if newPrice < 0 then
    .error (.jsError .productPriceNegative)
  else
    .ok { p with price := newPrice, updatedAt := now }

def updateStock (p : Product) (newStock : Int) (now : Int) :
    Except DomainErr Product :=
  if newStock < 0 then
    .error (.jsError .productStockNegative)
  else
    .ok { p with stock := newStock, updatedAt := now }

def incrementStock (p : Product) (amount : Int) (now : Int) :
    Except DomainErr Product :=
  if amount ≤ 0 then
    .error (.jsError .stockIncrementNotPositive)
  else
    p.updateStock (p.stock + amount) now

def decrementStock (p : Product) (amount : Int) (now : Int) :
    Except DomainErr Product :=
  if amount ≤ 0 then
    .error (.jsError .stockDecrementNotPositive)
  else
    let newStock := p.stock - amount
    if newStock < 0 then
      .error (.jsError .insufficientStockMsg)
    else
      p.updateStock newStock now

def updateCategory (p : Product) (newCategoryId : Str) (now : Int) :
    Except DomainErr Product :=
  if newCategoryId.isEmpty || (jsTrim newCategoryId).isEmpty then
    .error (.jsError .categoryIdEmpty)
  else
    .ok { p with categoryId := jsTrim newCategoryId, updatedAt := now }

def activate (p : Product) (now : Int) : Product :=
  if p.isActive then p else { p with isActive := true, updatedAt := now }

def deactivate (p : Product) (now : Int) : Product :=
  if !p.isActive then p else { p with isActive := false, updatedAt := now }

def isExpensive (p : Product) (threshold : ℚ := 1000) : Bool :=
  threshold < p.price

def isInStock (p : Product) : Bool := 0 < p.stock

def isLowStock (p : Product) (threshold : Int := 10) : Bool :=
  0 < p.stock && p.stock ≤ threshold

def isOutOfStock (p : Product) : Bool := p.stock = 0

def canBePurchased (p : Product) (quantity : Int) : Bool :=
  p.isActive && quantity ≤ p.stock

end Product

/-! ## `Price` value object (src/domain/value-objects/price.value-object.ts)

`Price.create` takes a raw JavaScript number, where NaN and the
infinities are observable; `JSNum` embeds exactly that: finite values
are rationals (ignoring double rounding, which no claim depends on). -/

inductive JSNum where
  | nan
  | posInf
  | negInf
  | fin (q : ℚ)
  deriving DecidableEq

/-- The JS comparison `x < 0` (false on NaN). -/
def JSNum.ltZero : JSNum → Bool
  | .nan => false
  | .posInf => false
  | .negInf => true
  | .fin q => decide (q < 0)

/-- Model of `Number.isFinite`. -/
def JSNum.isFinite : JSNum → Bool
  | .fin _ => true
  | _ => false

/-- Floor of a rational, written out on the numerator/denominator so that
the kernel can evaluate it (`Int.ediv` rounds toward `-∞` for the
positive denominator of a normalised `Rat`). -/
def ratFloor (q : ℚ) : Int := q.num.ediv q.den

/-- Model of `Math.round`: round half toward positive infinity, `⌊q + 1/2⌋`. -/
def jsMathRound (q : ℚ) : Int := ratFloor (q + 1/2)

theorem ratFloor_eq_floor (q : ℚ) : ratFloor q = ⌊q⌋ := by
  rw [ratFloor, Rat.floor_def]; rfl

structure Price where
  amount : ℚ
  currency : Str
  deriving DecidableEq

namespace Price

def SUPPORTED_CURRENCIES : List Str :=
  [str "USD", str "EUR", str "GBP", str "MXN", str "CAD", str "AUD"]

/-- Source expression `Math.round(value * 10^decimals) / 10^decimals`. -/
def roundToDecimals (value : ℚ) (decimals : Nat) : ℚ :=
  let factor : ℚ := (10 : ℚ) ^ decimals
  (jsMathRound (value * factor) : ℚ) / factor

def create (amount : JSNum) (currency : Str := str "USD") :
    Except DomainErr Price :=
  let normalizedCurrency := jsToUpper currency
  if ¬ (normalizedCurrency ∈ SUPPORTED_CURRENCIES) then
    .error (.jsError .invalidCurrency)
  else if amount.ltZero then
    .error (.jsError .priceAmountNegative)
  else if ¬ amount.isFinite then
    .error (.jsError .priceAmountNotFinite)
  else
    match amount with
    | .fin q => .ok { amount := roundToDecimals q 2
                      currency := normalizedCurrency }
    | _ => .error (.jsError .priceAmountNotFinite)

end Price

/-! ## `ProductCode` value object
(src/domain/value-objects/product-code.value-object.ts)

The sequence number that flows through `generate`/`next`/`previous` is a
JS number that can be `NaN` (from `parseInt` on a non-numeric suffix);
it is embedded as `Option Nat`, `none` standing for `NaN` (negative
values never reach the arithmetic: `generate` rejects them first, and
`parseInt` on an alphanumeric suffix never yields a negative). -/

structure ProductCode where
  code : Str
  deriving DecidableEq

namespace ProductCode

/-- Regex `CODE_PATTERN = /^[A-Z0-9]{3,4}-[A-Z0-9]{3,6}$/`: the string is a
dash-free alphanumeric prefix of length 3–4, a dash, and an
alphanumeric suffix of length 3–6. -/
def codePattern (l : Str) : Bool :=
  let p := l.takeWhile (· ≠ '-')
  match l.dropWhile (· ≠ '-') with
  | '-' :: q =>
      3 ≤ p.length && p.length ≤ 4 && p.all isUpperAlnum &&
      3 ≤ q.length && q.length ≤ 6 && q.all isUpperAlnum
  | _ => false

/-- Regex `PREFIX_PATTERN = /^[A-Z0-9]{3,4}$/`. -/
def prefixPattern (l : Str) : Bool :=
  3 ≤ l.length && l.length ≤ 4 && l.all isUpperAlnum

/-- Regex `SUFFIX_PATTERN = /^[A-Z0-9]{3,6}$/`. -/
def suffixPattern (l : Str) : Bool :=
  3 ≤ l.length && l.length ≤ 6 && l.all isUpperAlnum

def MIN_LENGTH : Nat := 7
def MAX_LENGTH : Nat := 11

def create (code : Str) : Except DomainErr ProductCode :=
  let normalizedCode := jsToUpper (jsTrim code)
  if normalizedCode.length < MIN_LENGTH then
    .error (.jsError .codeTooShort)
  else if MAX_LENGTH < normalizedCode.length then
    .error (.jsError .codeTooLong)
  else if ¬ codePattern normalizedCode then
    .error (.jsError .codeInvalidFormat)
  else
    .ok { code := normalizedCode }

def createFromParts (pre suffix : Str) : Except DomainErr ProductCode :=
  let normalizedPrefix := jsToUpper (jsTrim pre)
  let normalizedSuffix := jsToUpper (jsTrim suffix)
  if ¬ prefixPattern normalizedPrefix then
    .error (.jsError .prefixInvalidFormat)
  else if ¬ suffixPattern normalizedSuffix then
    .error (.jsError .suffixInvalidFormat)
  else
    .ok { code := normalizedPrefix ++ '-' :: normalizedSuffix }

/-- Source `generatePrefix(category)`: keep `[A-Z0-9]`, take 4 or right-pad
with `X`; `PROD` when nothing is left. -/
def generatePrefix (category : Str) : Str :=
  let sanitized := category.filter isUpperAlnum
  if sanitized.length = 0 then str "PROD"
  else if 4 ≤ sanitized.length then sanitized.take 4
  else padEnd 4 'X' sanitized

/-- Source `generate(category, sequence)`; the sequence is a JS number:
`none` is `NaN` (for which both range comparisons are false, as in JS)
and on the success path the sequence is a non-negative integer whose
decimal digits form the suffix. -/
def generate (category : Str) (sequence : Option Int) :
    Except DomainErr ProductCode :=
  if category.isEmpty || (jsTrim category).isEmpty then
    .error (.jsError .categoryCannotBeEmpty)
  else if (match sequence with | some n => n < 0 | none => false : Bool) then
    .error (.jsError .sequenceNegative)
  else if (match sequence with | some n => 999999 < n | none => false : Bool) then
    .error (.jsError .sequenceTooLarge)
  else
    let normalizedCategory := jsToUpper (jsTrim category)
    let pre := generatePrefix normalizedCategory
    let suffix := padStart 6 '0'
      (match sequence with | some n => natDigits n.toNat | none => str "NaN")
    createFromParts pre suffix

/-- Source expression `this.code.split('-')[0]`. -/
def getPrefix (c : ProductCode) : Str := c.code.takeWhile (· ≠ '-')

/-- Source expression `this.code.split('-')[1]`: the segment between the first dash and
the next one; `none` models the `undefined` of a dash-free code. -/
def getSuffix (c : ProductCode) : Option Str :=
  match c.code.dropWhile (· ≠ '-') with
  | _ :: rest => some (rest.takeWhile (· ≠ '-'))
  | [] => none

/-- Source expression `parseInt(this.getSuffix(), 10)`; `none` is `NaN`. -/
def getSequence (c : ProductCode) : Option Nat :=
  match c.getSuffix with
  | some s => jsParseInt s
  | none => none

/-- Source `isSequential(other)`: same prefix and `|Δsequence| === 1` (false
whenever either sequence is `NaN`). -/
def isSequential (c other : ProductCode) : Bool :=
  if c.getPrefix ≠ other.getPrefix then false
  else
    match c.getSequence, other.getSequence with
    | some a, some b => decide (((a : Int) - b).natAbs = 1)
    | _, _ => false

/-- Source `next()`: regenerate from `getPrefix()` and `sequence + 1`
(`NaN + 1` stays `NaN`). -/
def next (c : ProductCode) : Except DomainErr ProductCode :=
  generate c.getPrefix (c.getSequence.map (fun n => (n : Int) + 1))

/-- Source `previous()`. -/
def previous (c : ProductCode) : Except DomainErr ProductCode :=
  if c.getSequence = some 0 then
    .error (.jsError .previousAtZero)
  else
    generate c.getPrefix (c.getSequence.map (fun n => (n : Int) - 1))

def toString (c : ProductCode) : Str := c.code

end ProductCode

/-! ## Repository port and use cases

The SQL adapter (src/infrastructure/repositories/product.repository.ts)
is modelled over an in-memory list of products; each repository call and
each `Product.create` entity construction is recorded in an event
trace, so that "method M is never invoked" claims are statements about
the trace. -/

abbrev RepoDB := List Product

inductive TraceEv where
  | findById (id : Str)
  | existsBySku (sku : Str)
  | productCreate (id : Str)
  | repoCreate (id : Str)
  | repoUpdate (id : Str)
  | repoUpdateStock (id : Str) (newStock : Int)
  deriving DecidableEq

/-- Adapter call `findOne({ where: { id } })` mapped back to the domain entity. -/
def repoFindById (db : RepoDB) (id : Str) : Option Product :=
  db.find? (fun p => p.id = id)

/-- Adapter call `count({ where: { sku: sku.toUpperCase() } }) > 0`. -/
def repoExistsBySku (db : RepoDB) (sku : Str) : Bool :=
  db.any (fun p => p.sku = jsToUpper sku)

/-- Adapter call `repository.save(entity)` for a fresh row. -/
def repoCreate (db : RepoDB) (product : Product) : RepoDB := product :: db

/-- Adapter method `update(id, {...})` writes name, description, price, stock,
categoryId, isActive and a fresh `updatedAt` (not sku or createdAt),
then re-reads the row; a vanished row raises a plain `Error`. -/
def repoUpdate (db : RepoDB) (id : Str) (product : Product) (now : Int) :
    Except DomainErr (Product × RepoDB) :=
  match repoFindById db id with
  | none => .error (.jsError .notFoundAfterUpdate)
  | some old =>
      let saved := { old with
        name := product.name
        description := product.description
        price := product.price
        stock := product.stock
        categoryId := product.categoryId
        isActive := product.isActive
        updatedAt := now }
      .ok (saved, db.map (fun p => if p.id = id then saved else p))

/-- Adapter method `updateStock(productId, newStock)`: write stock and `updatedAt`,
re-read. -/
def repoUpdateStock (db : RepoDB) (productId : Str) (newStock : Int)
    (now : Int) : Except DomainErr (Product × RepoDB) :=
  match repoFindById db productId with
  | none => .error (.jsError .notFoundAfterUpdate)
  | some old =>
      let saved := { old with stock := newStock, updatedAt := now }
      .ok (saved, db.map (fun p => if p.id = productId then saved else p))

/-- Response DTO shared by the use cases; the ISO date strings are kept
as the underlying timestamps. -/
structure ProductResponseDTO where
  id : Str
  name : Str
  description : Str
  sku : Str
  price : ℚ
  stock : Int
  categoryId : Str
  isActive : Bool
  isInStock : Bool
  isLowStock : Bool
  createdAt : Int
  updatedAt : Int
  deriving DecidableEq

/-- Source `mapToDTO` (identical private helper in each use case). -/
def mapToDTO (product : Product) : ProductResponseDTO :=
  { id := product.id
    name := product.name
    description := product.description
    sku := product.sku
    price := product.price
    stock := product.stock
    categoryId := product.categoryId
    isActive := product.isActive
    isInStock := product.isInStock
    isLowStock := product.isLowStock
    createdAt := product.createdAt
    updatedAt := product.updatedAt }

/-! ### CreateProductUseCase (primitive-based variant, the one wired to
the DTO contracts; `crypto.randomUUID()` is passed in as `newId`) -/

structure CreateProductInput where
  name : Str
  description : Str
  price : ℚ
  stock : Int
  sku : Str
  categoryId : Str

def createProductExec (db : RepoDB) (input : CreateProductInput)
    (newId : Str) (now : Int) :
    Except DomainErr (ProductResponseDTO × RepoDB) × List TraceEv :=
  let skuExists := repoExistsBySku db input.sku
  let tr := [TraceEv.existsBySku input.sku]
  if skuExists then
    (.error (.duplicateProductCode input.sku), tr)
  else
    let tr := tr ++ [TraceEv.productCreate newId]
    match Product.create newId input.name input.description input.price
        input.stock input.sku input.categoryId now with
    | .error e => (.error e, tr)
    | .ok product =>
        let tr := tr ++ [TraceEv.repoCreate product.id]
        let db' := repoCreate db product
        (.ok (mapToDTO product, db'), tr)

/-! ### UpdateProductUseCase -/

/-- Contract `IUpdateProductDTO`: all fields optional; `none` embeds an absent
(`undefined`) field. The declared contract also carries `isActive?`. -/
structure UpdateData where
  name : Option Str := none
  description : Option Str := none
  price : Option ℚ := none
  stock : Option Int := none
  categoryId : Option Str := none
  isActive : Option Bool := none

structure UpdateProductInput where
  id : Str
  data : UpdateData

/-- The field-application chain of `UpdateProductUseCase.execute`
(each `if (input.data.f !== undefined)` guard in source order; the
`isActive` field of the input is never consulted by the source). -/
def applyUpdateData (p : Product) (d : UpdateData) (now : Int) :
    Except DomainErr Product :=
  (match d.name with
    | some nm => p.updateName nm now
    | none => pure p) >>= fun p =>
  (match d.description with
    | some ds => p.updateDescription ds now
    | none => pure p) >>= fun p =>
  (match d.price with
    | some pr => p.updatePrice pr now
    | none => pure p) >>= fun p =>
  (match d.stock with
    | some st => p.updateStock st now
    | none => pure p) >>= fun p =>
  (match d.categoryId with
    | some c => p.updateCategory c now
    | none => pure p) >>= fun p =>
  pure p

def updateProductExec (db : RepoDB) (input : UpdateProductInput)
    (now : Int) :
    Except DomainErr (ProductResponseDTO × RepoDB) × List TraceEv :=
  let tr := [TraceEv.findById input.id]
  match repoFindById db input.id with
  | none => (.error (.productNotFound input.id), tr)
  | some existingProduct =>
      match applyUpdateData existingProduct input.data now with
      | .error e => (.error e, tr)
      | .ok updatedProduct =>
          let tr := tr ++ [TraceEv.repoUpdate input.id]
          match repoUpdate db input.id updatedProduct now with
          | .error e => (.error e, tr)
          | .ok (savedProduct, db') => (.ok (mapToDTO savedProduct, db'), tr)

/-! ### UpdateStockUseCase -/

inductive StockOp where
  | increment
  | decrement
  deriving DecidableEq

structure UpdateStockInput where
  productId : Str
  quantity : Int
  operation : StockOp

def updateStockExec (db : RepoDB) (input : UpdateStockInput) (now : Int) :
    Except DomainErr (ProductResponseDTO × RepoDB) × List TraceEv :=
  let tr := [TraceEv.findById input.productId]
  match repoFindById db input.productId with
  | none => (.error (.productNotFound input.productId), tr)
  | some product =>
      if input.quantity ≤ 0 then
        (.error (.invalidProductDataNegative (str "quantity") input.quantity), tr)
      else
        let attempt :=
          match input.operation with
          | .increment => product.incrementStock input.quantity now
          | .decrement => product.decrementStock input.quantity now
        -- the source's catch block rethrows every error unchanged
        -- (its `instanceof InsufficientStockError` branch and its
        -- fall-through both `throw error`)
        match attempt with
        | .error e => (.error e, tr)
        | .ok updatedProduct =>
            let tr := tr ++
              [TraceEv.repoUpdateStock input.productId updatedProduct.stock]
            match repoUpdateStock db input.productId updatedProduct.stock now with
            | .error e => (.error e, tr)
            | .ok (savedProduct, db') => (.ok (mapToDTO savedProduct, db'), tr)

/-! ## Supporting lemmas -/

theorem isUpperAlnum_not_ws {c : Char} (h : isUpperAlnum c = true) :
    jsIsWs c = false := by
  simp only [isUpperAlnum, Bool.or_eq_true, Bool.and_eq_true, decide_eq_true_eq] at h
  simp only [jsIsWs, Bool.or_eq_false_iff, decide_eq_false_iff_not]
  refine ⟨⟨⟨?_, ?_⟩, ?_⟩, ?_⟩ <;>
    · intro hc; subst hc; revert h; decide

theorem isUpperAlnum_upper_id {c : Char} (h : isUpperAlnum c = true) :
    jsCharUpper c = c := by
  simp only [isUpperAlnum, Bool.or_eq_true, Bool.and_eq_true, decide_eq_true_eq] at h
  unfold jsCharUpper
  rw [if_neg]; omega

theorem isUpperAlnum_ne_dash {c : Char} (h : isUpperAlnum c = true) :
    c ≠ '-' := by
  intro hc; subst hc; revert h; decide

theorem isDigitCh_isUpperAlnum {c : Char} (h : isDigitCh c = true) :
    isUpperAlnum c = true := by
  simp only [isDigitCh, Bool.and_eq_true, decide_eq_true_eq] at h
  simp only [isUpperAlnum, Bool.or_eq_true, Bool.and_eq_true, decide_eq_true_eq]
  omega

theorem dropWhile_eq_self_of_all {p : Char → Bool} {l : Str}
    (h : ∀ c ∈ l, p c = false) : l.dropWhile p = l := by
  cases l with
  | nil => rfl
  | cons c cs => simp [List.dropWhile_cons, h c (by simp)]

/-- Trimming is the identity on strings with no whitespace at all. -/
theorem jsTrim_eq_self_of_all {l : Str} (h : ∀ c ∈ l, jsIsWs c = false) :
    jsTrim l = l := by
  unfold jsTrim
  rw [dropWhile_eq_self_of_all h,
      dropWhile_eq_self_of_all (by intro c hc; exact h c (List.mem_reverse.mp hc)),
      List.reverse_reverse]

/-- Uppercasing is the identity on `[A-Z0-9]` strings. -/
theorem jsToUpper_eq_self_of_all {l : Str}
    (h : ∀ c ∈ l, isUpperAlnum c = true) : jsToUpper l = l := by
  unfold jsToUpper
  induction l with
  | nil => rfl
  | cons c cs ih =>
      simp only [List.map_cons, List.cons.injEq]
      exact ⟨isUpperAlnum_upper_id (h c (by simp)),
             ih (by intro d hd; exact h d (by simp [hd]))⟩

theorem jsTrim_alnum {l : Str} (h : ∀ c ∈ l, isUpperAlnum c = true) :
    jsTrim l = l :=
  jsTrim_eq_self_of_all (fun c hc => isUpperAlnum_not_ws (h c hc))

theorem takeWhile_append_of_all {α : Type} (p : α → Bool) (x : α)
    (hx : p x = false) (l r : List α) (hl : ∀ c ∈ l, p c = true) :
    (l ++ x :: r).takeWhile p = l := by
  induction l with
  | nil => simp [List.takeWhile_cons, hx]
  | cons c cs ih =>
      rw [List.cons_append, List.takeWhile_cons, if_pos (hl c (by simp))]
      exact congrArg (List.cons c) (ih (fun d hd => hl d (by simp [hd])))

theorem dropWhile_append_of_all {α : Type} (p : α → Bool) (x : α)
    (hx : p x = false) (l r : List α) (hl : ∀ c ∈ l, p c = true) :
    (l ++ x :: r).dropWhile p = x :: r := by
  induction l with
  | nil => simp [List.dropWhile_cons, hx]
  | cons c cs ih =>
      rw [List.cons_append, List.dropWhile_cons, if_pos (hl c (by simp))]
      exact ih (fun d hd => hl d (by simp [hd]))

theorem takeWhile_append_dash {p q : Str}
    (hp : ∀ c ∈ p, c ≠ '-') :
    (p ++ '-' :: q).takeWhile (· ≠ '-') = p :=
  takeWhile_append_of_all _ '-' (by simp) p q
    (fun c hc => decide_eq_true (hp c hc))

theorem dropWhile_append_dash {p q : Str}
    (hp : ∀ c ∈ p, c ≠ '-') :
    (p ++ '-' :: q).dropWhile (· ≠ '-') = '-' :: q :=
  dropWhile_append_of_all _ '-' (by simp) p q
    (fun c hc => decide_eq_true (hp c hc))

theorem char_toNat_ofNat {n : Nat} (h : n < 55296) :
    (Char.ofNat n).toNat = n := by
  have hv : n.isValidChar := Or.inl h
  unfold Char.ofNat
  rw [dif_pos hv]
  rfl

/-- Fuel irrelevance for `natDigitsAux`. -/
theorem natDigitsAux_fuel {n : Nat} : ∀ {fuel fuel' : Nat}, n < fuel →
    n < fuel' → natDigitsAux fuel n = natDigitsAux fuel' n := by
  induction n using Nat.strong_induction_on with
  | _ n ih =>
      intro fuel fuel' h h'
      match fuel, fuel' with
      | f + 1, f' + 1 =>
          simp only [natDigitsAux]
          by_cases h10 : n < 10
          · simp [h10]
          · have hdiv : n / 10 < n := Nat.div_lt_self (by omega) (by omega)
            rw [if_neg h10, if_neg h10,
              ih (n / 10) hdiv (show n / 10 < f by omega)
                (show n / 10 < f' by omega)]

/-- Unfolding equation of `natDigits`. -/
theorem natDigits_eq (n : Nat) :
    natDigits n = if n < 10 then [Char.ofNat (48 + n)]
      else natDigits (n / 10) ++ [Char.ofNat (48 + n % 10)] := by
  show natDigitsAux (n + 1) n = _
  rw [natDigitsAux]
  by_cases h10 : n < 10
  · simp [h10]
  · have hdiv : n / 10 < n := Nat.div_lt_self (by omega) (by omega)
    rw [if_neg h10, if_neg h10, natDigits,
      natDigitsAux_fuel (show n / 10 < n by omega)
        (show n / 10 < n / 10 + 1 by omega)]

theorem natDigits_all_digit (n : Nat) :
    ∀ c ∈ natDigits n, isDigitCh c = true := by
  induction n using Nat.strong_induction_on with
  | _ n ih =>
      rw [natDigits_eq]
      by_cases h10 : n < 10
      · rw [if_pos h10]
        intro c hc
        simp only [List.mem_singleton] at hc; subst hc
        have hv : (Char.ofNat (48 + n)).toNat = 48 + n :=
          char_toNat_ofNat (by omega)
        simp only [isDigitCh, hv]
        simp; omega
      · rw [if_neg h10]
        intro c hc
        rcases List.mem_append.mp hc with hc | hc
        · exact ih (n / 10) (Nat.div_lt_self (by omega) (by omega)) c hc
        · simp only [List.mem_singleton] at hc; subst hc
          have hm : n % 10 < 10 := Nat.mod_lt _ (by omega)
          have hv : (Char.ofNat (48 + n % 10)).toNat = 48 + n % 10 :=
            char_toNat_ofNat (by omega)
          simp only [isDigitCh, hv]
          simp; omega

theorem natDigits_length_le (k n : Nat) (h : n < 10 ^ (k + 1)) :
    (natDigits n).length ≤ k + 1 := by
  induction k generalizing n with
  | zero =>
      rw [natDigits_eq, if_pos (by simpa using h)]; simp
  | succ k ih =>
      rw [natDigits_eq]
      by_cases h10 : n < 10
      · rw [if_pos h10]; simp
      · rw [if_neg h10]
        have : n / 10 < 10 ^ (k + 1) := by
          rw [Nat.div_lt_iff_lt_mul (by omega)]
          calc n < 10 ^ (k + 2) := h
          _ = 10 ^ (k + 1) * 10 := by ring
        have := ih (n / 10) this
        simp only [List.length_append, List.length_singleton]
        omega

theorem padStart_length {n : Nat} {c : Char} {l : Str}
    (h : l.length ≤ n) : (padStart n c l).length = n := by
  simp [padStart]; omega

theorem padStart_all {n : Nat} {c : Char} {l : Str} {p : Char → Bool}
    (hc : p c = true) (hl : ∀ d ∈ l, p d = true) :
    ∀ d ∈ padStart n c l, p d = true := by
  intro d hd
  rcases List.mem_append.mp hd with hd | hd
  · rw [List.eq_of_mem_replicate hd]; exact hc
  · exact hl d hd

/-- Empty trim propagates backwards: a string whose trim is nonempty is
itself nonempty. -/
theorem isEmpty_of_jsTrim {l : Str} (h : (jsTrim l).isEmpty = false) :
    l.isEmpty = false := by
  cases l with
  | nil => simp [jsTrim, List.dropWhile] at h
  | cons c cs => rfl

/-- The prefix computed by `generatePrefix` is always four `[A-Z0-9]`
characters. -/
theorem generatePrefix_valid (cat : Str) :
    (ProductCode.generatePrefix cat).length = 4 ∧
    ∀ c ∈ ProductCode.generatePrefix cat, isUpperAlnum c = true := by
  unfold ProductCode.generatePrefix
  set s := cat.filter isUpperAlnum with hs
  have hall : ∀ c ∈ s, isUpperAlnum c = true := by
    intro c hc; exact (List.mem_filter.mp hc).2
  by_cases h0 : s.length = 0
  · rw [if_pos h0]
    refine ⟨rfl, ?_⟩; decide
  · rw [if_neg h0]
    by_cases h4 : 4 ≤ s.length
    · rw [if_pos h4]
      refine ⟨by rw [List.length_take]; omega, ?_⟩
      intro c hc
      exact hall c (List.take_subset _ _ hc)
    · rw [if_neg h4]
      refine ⟨by simp [padEnd]; omega, ?_⟩
      intro c hc
      rcases List.mem_append.mp hc with hc | hc
      · exact hall c hc
      · rw [List.eq_of_mem_replicate hc]; decide

/-- On four valid characters, `createFromParts` accepts a 4-character
prefix and a 6-character suffix without renormalising them. -/
theorem createFromParts_ok {pre suffix : Str}
    (hp4 : pre.length = 4) (hpa : ∀ c ∈ pre, isUpperAlnum c = true)
    (hs6 : suffix.length = 6) (hsa : ∀ c ∈ suffix, isUpperAlnum c = true) :
    ProductCode.createFromParts pre suffix =
      .ok ⟨pre ++ '-' :: suffix⟩ := by
  unfold ProductCode.createFromParts
  have hpre : jsToUpper (jsTrim pre) = pre := by
    rw [jsTrim_alnum hpa, jsToUpper_eq_self_of_all hpa]
  have hsuf : jsToUpper (jsTrim suffix) = suffix := by
    rw [jsTrim_alnum hsa, jsToUpper_eq_self_of_all hsa]
  simp only [hpre, hsuf]
  rw [if_neg, if_neg]
  · simp only [ProductCode.suffixPattern, hs6]
    simp only [Bool.not_eq_true, Bool.and_eq_false_iff]
    intro h
    rcases h with h | h
    · rcases h with h | h <;> revert h <;> decide
    · rw [List.all_eq_true.symm.mp] at h
      · cases h
      · exact fun c hc => hsa c hc
  · simp only [ProductCode.prefixPattern, hp4]
    simp only [Bool.not_eq_true, Bool.and_eq_false_iff]
    intro h
    rcases h with h | h
    · rcases h with h | h <;> revert h <;> decide
    · rw [List.all_eq_true.symm.mp] at h
      · cases h
      · exact fun c hc => hpa c hc

/-- Success shape of `generate` on an in-range integer sequence. -/
theorem generate_ok {cat : Str} {n : Int}
    (hcat : (jsTrim cat).isEmpty = false) (h0 : 0 ≤ n) (h6 : n ≤ 999999) :
    ProductCode.generate cat (some n) =
      .ok ⟨ProductCode.generatePrefix (jsToUpper (jsTrim cat)) ++
        '-' :: padStart 6 '0' (natDigits n.toNat)⟩ := by
  unfold ProductCode.generate
  rw [if_neg (by rw [isEmpty_of_jsTrim hcat, hcat]; simp),
    if_neg (by simp; omega), if_neg (by simp; omega)]
  have hpre := generatePrefix_valid (jsToUpper (jsTrim cat))
  have hdig : (natDigits n.toNat).length ≤ 6 := by
    refine natDigits_length_le 5 n.toNat ?_
    show n.toNat < 1000000
    omega
  have hsuf6 : (padStart 6 '0' (natDigits n.toNat)).length = 6 :=
    padStart_length hdig
  have hsufa : ∀ c ∈ padStart 6 '0' (natDigits n.toNat),
      isUpperAlnum c = true :=
    padStart_all (by decide)
      (fun d hd => isDigitCh_isUpperAlnum (natDigits_all_digit n.toNat d hd))
  exact createFromParts_ok hpre.1 hpre.2 hsuf6 hsufa

/-- Decomposition of a string accepted by `CODE_PATTERN`. -/
theorem codePattern_destruct {l : Str}
    (h : ProductCode.codePattern l = true) :
    ∃ p q, l = p ++ '-' :: q ∧
      p = l.takeWhile (· ≠ '-') ∧
      3 ≤ p.length ∧ p.length ≤ 4 ∧ (∀ c ∈ p, isUpperAlnum c = true) ∧
      3 ≤ q.length ∧ q.length ≤ 6 ∧ (∀ c ∈ q, isUpperAlnum c = true) := by
  unfold ProductCode.codePattern at h
  rcases hdrop : l.dropWhile (· ≠ '-') with _ | ⟨c, q⟩
  · rw [hdrop] at h; cases h
  · rw [hdrop] at h
    have hc : c = '-' := by
      have hne : l.dropWhile (· ≠ '-') ≠ [] := by
        rw [hdrop]; exact List.cons_ne_nil _ _
      have hhead := List.head_dropWhile_not (· ≠ '-') l hne
      have h1 : (l.dropWhile (· ≠ '-')).head? = some c := by rw [hdrop]; rfl
      rw [List.head?_eq_head hne] at h1
      rw [Option.some.injEq] at h1
      rw [h1] at hhead
      simpa using hhead
    subst hc
    simp only [Bool.and_eq_true, decide_eq_true_eq, List.all_eq_true] at h
    refine ⟨l.takeWhile (· ≠ '-'), q, ?_, rfl,
      h.1.1.1.1.1, h.1.1.1.1.2, fun c hc => h.1.1.1.2 c hc,
      h.1.1.2, h.1.2, fun c hc => h.2 c hc⟩
    conv_lhs => rw [← List.takeWhile_append_dropWhile (p := (· ≠ '-')) (l := l)]
    rw [hdrop]

/-- Failure of `generate` on an empty (after trimming) category. -/
theorem generate_error_of_trim_empty {cat : Str} (s : Option Int)
    (h : (jsTrim cat).isEmpty = true) :
    ProductCode.generate cat s = .error (.jsError .categoryCannotBeEmpty) := by
  unfold ProductCode.generate
  rw [if_pos (by simp [h])]

theorem generate_not_ok_of_neg {cat : Str} {n : Int} (h : n < 0) :
    (ProductCode.generate cat (some n)).isOk = false := by
  unfold ProductCode.generate
  by_cases h1 : cat.isEmpty || (jsTrim cat).isEmpty
  · rw [if_pos h1]; rfl
  · rw [if_neg h1, if_pos (by simpa using h)]; rfl

theorem generate_not_ok_of_large {cat : Str} {n : Int} (h : 999999 < n) :
    (ProductCode.generate cat (some n)).isOk = false := by
  unfold ProductCode.generate
  by_cases h1 : cat.isEmpty || (jsTrim cat).isEmpty
  · rw [if_pos h1]; rfl
  · rw [if_neg h1, if_neg (by simp; omega), if_pos (by simpa using h)]; rfl

/-! ## Claim theorems -/

/-- C6: `ProductCode.generate(category, sequence)` fails exactly when the
category is empty after trimming or the integer sequence lies outside
`[0, 999999]`; otherwise it returns the code whose prefix is the
sanitised category prefix computed by `generatePrefix` (alphanumeric,
truncated to 4 or right-padded with `X`, literal `PROD` when empty) and
whose suffix is the sequence zero-padded to 6 digits; in particular
`generate("electronics", 7)` yields `"ELEC-000007"`. -/
theorem claim_C6 :
    (∀ (cat : Str) (n : Int),
      (ProductCode.generate cat (some n)).isOk = true ↔
        ((jsTrim cat).isEmpty = false ∧ 0 ≤ n ∧ n ≤ 999999)) ∧
    (∀ (cat : Str) (n : Int),
      (jsTrim cat).isEmpty = false → 0 ≤ n → n ≤ 999999 →
      ProductCode.generate cat (some n) =
        .ok ⟨ ProductCode.generatePrefix (jsToUpper (jsTrim cat)) ++
          '-' :: padStart 6 '0' (natDigits n.toNat)⟩) ∧
    ProductCode.generate (str "electronics") (some 7) =
      .ok ⟨str "ELEC-000007"⟩ := by
  refine ⟨?_, fun cat n hcat h0 h6 => generate_ok hcat h0 h6, by decide⟩
  intro cat n
  constructor
  · intro h
    refine ⟨?_, ?_, ?_⟩
    · by_contra hcon
      have hempty : (jsTrim cat).isEmpty = true := by
        simpa using hcon
      rw [generate_error_of_trim_empty _ hempty] at h
      cases h
    · by_contra hcon
      rw [generate_not_ok_of_neg (by omega)] at h
      cases h
    · by_contra hcon
      rw [generate_not_ok_of_large (by omega)] at h
      cases h
  · rintro ⟨hc, h0, h6⟩
    rw [generate_ok hc h0 h6]
    rfl

/-- C6 witness: the theorem instantiated at `("electronics", 7)` and at
an out-of-range sequence. -/
theorem claim_C6_witness :
    (ProductCode.generate (str "electronics") (some 7)).isOk = true ∧
    (ProductCode.generate (str "electronics") (some 1000000)).isOk = false := by
  constructor
  · exact (claim_C6.1 (str "electronics") 7).mpr ⟨by decide, by omega, by omega⟩
  · have h := claim_C6.1 (str "electronics") 1000000
    by_contra hcon
    have : (ProductCode.generate (str "electronics") (some 1000000)).isOk = true := by
      revert hcon
      cases (ProductCode.generate (str "electronics") (some 1000000)).isOk <;> simp
    have := (h.mp this).2.2
    omega

/-- C8 (amended): `ProductCode.create` normalises by trimming and
uppercasing and accepts exactly the normalised strings within the
length bounds 7–11 that match the `{3-4 alphanumeric}-{3-6
alphanumeric}` pattern — but a rejected input raises a plain `Error`
(`codeTooShort` / `codeTooLong` / `codeInvalidFormat`), not the
`InvalidProductDataError` (`InvalidFormat`) domain-error class; every
accepted input round-trips through `toString()`, and
`create("lap-hp001")` yields `"LAP-HP001"`. -/
theorem claim_C8 :
    (∀ s : Str,
      (ProductCode.create s).isOk = true ↔
        (7 ≤ (jsToUpper (jsTrim s)).length ∧
         (jsToUpper (jsTrim s)).length ≤ 11 ∧
         ProductCode.codePattern (jsToUpper (jsTrim s)) = true)) ∧
    (∀ (s : Str) (e : DomainErr), ProductCode.create s = .error e →
      ∃ tag, e = .jsError tag) ∧
    (∀ (s : Str) (c : ProductCode), ProductCode.create s = .ok c →
      ProductCode.toString c = jsToUpper (jsTrim s)) ∧
    ProductCode.create (str "lap-hp001") = .ok ⟨str "LAP-HP001"⟩ := by
  refine ⟨?_, ?_, ?_, by decide⟩
  · intro s
    simp only [ProductCode.create]
    by_cases h1 : (jsToUpper (jsTrim s)).length < ProductCode.MIN_LENGTH
    · rw [if_pos h1]
      constructor
      · intro h; exact absurd h (by decide)
      · rintro ⟨h7, -, -⟩
        exact absurd h1 (by rw [ProductCode.MIN_LENGTH]; omega)
    · rw [if_neg h1]
      by_cases h2 : ProductCode.MAX_LENGTH < (jsToUpper (jsTrim s)).length
      · rw [if_pos h2]
        constructor
        · intro h; exact absurd h (by decide)
        · rintro ⟨-, h11, -⟩
          exact absurd h2 (by rw [ProductCode.MAX_LENGTH]; omega)
      · rw [if_neg h2]
        by_cases h3 : ProductCode.codePattern (jsToUpper (jsTrim s)) = true
        · rw [if_neg (by simp [h3])]
          rw [ProductCode.MIN_LENGTH] at h1
          rw [ProductCode.MAX_LENGTH] at h2
          exact ⟨fun _ => ⟨by omega, by omega, h3⟩, fun _ => rfl⟩
        · rw [if_pos (by simpa using h3)]
          constructor
          · intro h; exact absurd h (by decide)
          · rintro ⟨-, -, hpat⟩
            exact absurd hpat h3
  · intro s e h
    simp only [ProductCode.create] at h
    split at h
    · exact ⟨_, (Except.error.inj h).symm⟩
    · split at h
      · exact ⟨_, (Except.error.inj h).symm⟩
      · split at h
        · exact ⟨_, (Except.error.inj h).symm⟩
        · cases h
  · intro s c h
    simp only [ProductCode.create] at h
    split at h
    · cases h
    · split at h
      · cases h
      · split at h
        · cases h
        · rw [← Except.ok.inj h]
          rfl

/-- C8 counterexample to the claim as stated: `create("ab")` fails with
a plain `Error` (throw-site tag `codeTooShort`), which is not the
`InvalidProductDataError`/`InvalidFormat` domain-error kind named by the
claim (no `DomainErr` class constructor, only the generic `jsError`). -/
theorem claim_C8_counterexample :
    ProductCode.create (str "ab") = .error (.jsError .codeTooShort) ∧
    (∀ f v, DomainErr.jsError .codeTooShort ≠
      DomainErr.invalidProductDataNegative f v) := by
  exact ⟨by decide, fun f v h => by cases h⟩

/-- C8 witness: the amended theorem instantiated at `"lap-hp001"`. -/
theorem claim_C8_witness :
    (ProductCode.create (str "lap-hp001")).isOk = true ∧
    ProductCode.toString ⟨str "LAP-HP001"⟩ = jsToUpper (jsTrim (str "lap-hp001")) := by
  constructor
  · exact (claim_C8.1 (str "lap-hp001")).mpr ⟨by decide, by decide, by decide⟩
  · exact claim_C8.2.2.1 (str "lap-hp001") ⟨str "LAP-HP001"⟩ (by decide)

/-- C9: for a well-formed code with a 3-character prefix and a suffix
parsing strictly below 999999, `next()` regenerates through
`generate`/`generatePrefix`, which pads the 3-character prefix with `X`;
the successor code therefore has prefix `p ++ "X"`, and
`isSequential` against it is false (prefix mismatch). -/
theorem claim_C9 (c : ProductCode)
    (hpat : ProductCode.codePattern c.code = true)
    (hlen : (ProductCode.getPrefix c).length = 3)
    (n : Nat) (hseq : ProductCode.getSequence c = some n)
    (hn : n < 999999) :
    ProductCode.next c =
      .ok ⟨(ProductCode.getPrefix c ++ ['X']) ++
        '-' :: padStart 6 '0' (natDigits (n + 1))⟩ ∧
    ProductCode.getPrefix ⟨(ProductCode.getPrefix c ++ ['X']) ++
        '-' :: padStart 6 '0' (natDigits (n + 1))⟩ =
      ProductCode.getPrefix c ++ ['X'] ∧
    ProductCode.isSequential c ⟨(ProductCode.getPrefix c ++ ['X']) ++
        '-' :: padStart 6 '0' (natDigits (n + 1))⟩ = false := by
  obtain ⟨p, q, hl, hp, h3, h4, hpa, hq3, hq6, hqa⟩ := codePattern_destruct hpat
  have hpre : ProductCode.getPrefix c = p := by
    rw [ProductCode.getPrefix, hl,
      takeWhile_append_dash (fun d hd => isUpperAlnum_ne_dash (hpa d hd))]
  have hplen : p.length = 3 := by rw [← hpre]; exact hlen
  have htrim : jsTrim p = p := jsTrim_alnum hpa
  have hup : jsToUpper p = p := jsToUpper_eq_self_of_all hpa
  have hgenpre : ProductCode.generatePrefix p = p ++ ['X'] := by
    unfold ProductCode.generatePrefix
    have hfil : p.filter isUpperAlnum = p := by
      rw [List.filter_eq_self]
      exact hpa
    rw [hfil, if_neg (by omega), if_neg (by omega)]
    simp [padEnd, hplen, List.replicate_one]
  have hnext : ProductCode.next c =
      .ok ⟨(p ++ ['X']) ++ '-' :: padStart 6 '0' (natDigits (n + 1))⟩ := by
    rw [ProductCode.next, hseq, hpre]
    show ProductCode.generate p (some ((n : Int) + 1)) = _
    rw [generate_ok (by rw [htrim]; cases p with
        | nil => simp at hplen
        | cons a as => rfl)
      (by omega) (by omega)]
    rw [htrim, hup, hgenpre, show ((n : Int) + 1).toNat = n + 1 by omega]
  have hxa : ∀ d ∈ p ++ ['X'], isUpperAlnum d = true := by
    intro d hd
    rcases List.mem_append.mp hd with hd | hd
    · exact hpa d hd
    · simp only [List.mem_singleton] at hd; subst hd; decide
  have hpre' : ProductCode.getPrefix ⟨(p ++ ['X']) ++
      '-' :: padStart 6 '0' (natDigits (n + 1))⟩ = p ++ ['X'] := by
    rw [ProductCode.getPrefix]
    exact takeWhile_append_dash (fun d hd => isUpperAlnum_ne_dash (hxa d hd))
  rw [hpre]
  refine ⟨hnext, hpre', ?_⟩
  rw [ProductCode.isSequential, if_pos]
  rw [hpre, hpre']
  intro hcon
  have := congrArg List.length hcon
  simp at this

/-- C9 witness: the theorem applied to the concrete code `ABC-001`,
whose prefix has 3 characters and whose suffix parses to 1. -/
theorem claim_C9_witness :
    ProductCode.next ⟨str "ABC-001"⟩ = .ok ⟨str "ABCX-000002"⟩ ∧
    ProductCode.isSequential ⟨str "ABC-001"⟩ ⟨str "ABCX-000002"⟩ = false := by
  have h := claim_C9 ⟨str "ABC-001"⟩ (by decide) (by decide) 1 (by decide)
    (by omega)
  refine ⟨h.1.trans (by decide), ?_⟩
  have h2 := h.2.2
  have he : (⟨(ProductCode.getPrefix ⟨str "ABC-001"⟩ ++ ['X']) ++
      '-' :: padStart 6 '0' (natDigits (1 + 1))⟩ : ProductCode) =
      ⟨str "ABCX-000002"⟩ := by decide
  rw [← he]
  exact h2

/-- C7 (amended): `Price.create(amount, currency)` fails exactly when
the amount is negative, non-finite, or the uppercased currency is not
in {USD, EUR, GBP, MXN, CAD, AUD} — but the failure is a plain `Error`
(tags `invalidCurrency` / `priceAmountNegative` / `priceAmountNotFinite`),
not a dedicated `InvalidValue` domain-error class; for every finite
amount ≥ 0 and supported currency the resulting amount is the input
rounded to 2 fractional digits. -/
theorem claim_C7 :
    (∀ (a : JSNum) (c : Str),
      (Price.create a c).isOk = true ↔
        (a.isFinite = true ∧ a.ltZero = false ∧
         jsToUpper c ∈ Price.SUPPORTED_CURRENCIES)) ∧
    (∀ (q : ℚ) (c : Str), 0 ≤ q →
      jsToUpper c ∈ Price.SUPPORTED_CURRENCIES →
      Price.create (.fin q) c =
        .ok ⟨Price.roundToDecimals q 2, jsToUpper c⟩) ∧
    (∀ (a : JSNum) (c : Str) (e : DomainErr),
      Price.create a c = .error e → ∃ tag, e = .jsError tag) := by
  refine ⟨?_, ?_, ?_⟩
  · intro a c
    simp only [Price.create]
    by_cases hmem : jsToUpper c ∈ Price.SUPPORTED_CURRENCIES
    · rw [if_neg (by simpa using hmem)]
      by_cases hneg : a.ltZero = true
      · rw [if_pos hneg]
        constructor
        · intro h; exact absurd h (by decide)
        · rintro ⟨-, hz, -⟩; rw [hneg] at hz; cases hz
      · rw [if_neg hneg]
        cases a with
        | fin q =>
            rw [if_neg (by simp [JSNum.isFinite])]
            exact ⟨fun _ => ⟨rfl, by simpa using hneg, hmem⟩, fun _ => rfl⟩
        | nan =>
            rw [if_pos (by simp [JSNum.isFinite])]
            exact ⟨fun h => absurd h (by decide), by rintro ⟨h, -, -⟩; cases h⟩
        | posInf =>
            rw [if_pos (by simp [JSNum.isFinite])]
            exact ⟨fun h => absurd h (by decide), by rintro ⟨h, -, -⟩; cases h⟩
        | negInf =>
            rw [if_pos (by simp [JSNum.isFinite])]
            exact ⟨fun h => absurd h (by decide), by rintro ⟨h, -, -⟩; cases h⟩
    · rw [if_pos (by simpa using hmem)]
      exact ⟨fun h => absurd h (by decide), by rintro ⟨-, -, h⟩; exact absurd h hmem⟩
  · intro q c h0 hmem
    simp only [Price.create]
    rw [if_neg (by simpa using hmem),
      if_neg (by simp only [JSNum.ltZero, decide_eq_true_eq]; exact not_lt.mpr h0),
      if_neg (by simp [JSNum.isFinite])]
  · intro a c e h
    simp only [Price.create] at h
    split at h
    · exact ⟨_, (Except.error.inj h).symm⟩
    · split at h
      · exact ⟨_, (Except.error.inj h).symm⟩
      · split at h
        · exact ⟨_, (Except.error.inj h).symm⟩
        · split at h
          · cases h
          · exact ⟨_, (Except.error.inj h).symm⟩

/-- C7 counterexample to the claim as stated: a negative amount raises
a plain `Error` (throw-site tag `priceAmountNegative`), not an
`InvalidValue`/`InvalidProductDataError` domain-error class value. -/
theorem claim_C7_counterexample :
    Price.create (.fin (-1)) (str "USD") =
      .error (.jsError .priceAmountNegative) ∧
    (∀ f v, DomainErr.jsError .priceAmountNegative ≠
      DomainErr.invalidProductDataNegative f v) := by
  exact ⟨by decide, fun f v h => by cases h⟩

/-- C7 witness: the amended theorem applied at amount `10.237` and
currency `"usd"`, rounding to `10.24`. -/
theorem claim_C7_witness :
    Price.create (.fin (10237/1000)) (str "usd") =
      .ok ⟨1024/100, str "USD"⟩ := by
  have h := claim_C7.2.1 (10237/1000) (str "usd") (by norm_num) (by decide)
  rw [h, show jsToUpper (str "usd") = str "USD" by decide]
  have hr : Price.roundToDecimals (10237/1000) 2 = 1024/100 := by
    rw [Price.roundToDecimals, jsMathRound, ratFloor_eq_floor]
    norm_num
  rw [hr]

/-- C3: the checks of `Product.create` run in the order name → price →
stock → sku and the first failing check determines the error — but each
such error is a plain `Error` (`jsError` tag), not a value of the
`InvalidProductDataError` class the claim names: the last conjunct shows
every failure of `Product.create` is a `jsError`. -/
theorem claim_C3 :
    (∀ (i nm d : Str) (pr : ℚ) (st : Int) (sk cat : Str) (t : Int),
      (nm.isEmpty || (jsTrim nm).isEmpty) = true →
      Product.create i nm d pr st sk cat t =
        .error (.jsError .productNameEmpty)) ∧
    (∀ (i nm d : Str) (pr : ℚ) (st : Int) (sk cat : Str) (t : Int),
      (nm.isEmpty || (jsTrim nm).isEmpty) = false → pr < 0 →
      Product.create i nm d pr st sk cat t =
        .error (.jsError .productPriceNegative)) ∧
    (∀ (i nm d : Str) (pr : ℚ) (st : Int) (sk cat : Str) (t : Int),
      (nm.isEmpty || (jsTrim nm).isEmpty) = false → 0 ≤ pr → st < 0 →
      Product.create i nm d pr st sk cat t =
        .error (.jsError .productStockNegative)) ∧
    (∀ (i nm d : Str) (pr : ℚ) (st : Int) (sk cat : Str) (t : Int),
      (nm.isEmpty || (jsTrim nm).isEmpty) = false → 0 ≤ pr → 0 ≤ st →
      (sk.isEmpty || (jsTrim sk).isEmpty) = true →
      Product.create i nm d pr st sk cat t =
        .error (.jsError .productSkuEmpty)) ∧
    (∀ (i nm d : Str) (pr : ℚ) (st : Int) (sk cat : Str) (t : Int)
      (e : DomainErr),
      Product.create i nm d pr st sk cat t = .error e →
      ∃ tag, e = .jsError tag) := by
  refine ⟨?_, ?_, ?_, ?_, ?_⟩
  · intro i nm d pr st sk cat t h
    rw [Product.create, if_pos h]
  · intro i nm d pr st sk cat t h hpr
    rw [Product.create, if_neg (by simp [h]), if_pos hpr]
  · intro i nm d pr st sk cat t h hpr hst
    rw [Product.create, if_neg (by simp [h]), if_neg (not_lt.mpr hpr),
      if_pos hst]
  · intro i nm d pr st sk cat t h hpr hst hsk
    rw [Product.create, if_neg (by simp [h]), if_neg (not_lt.mpr hpr),
      if_neg (by omega), if_pos hsk]
  · intro i nm d pr st sk cat t e h
    rw [Product.create] at h
    split at h
    · exact ⟨_, (Except.error.inj h).symm⟩
    · split at h
      · exact ⟨_, (Except.error.inj h).symm⟩
      · split at h
        · exact ⟨_, (Except.error.inj h).symm⟩
        · split at h
          · exact ⟨_, (Except.error.inj h).symm⟩
          · cases h

/-- C3 witness: for an input violating both the name and the price
check, the earliest check (name) fires, and its error is the generic
`Error`, not the `InvalidProductDataError` class. -/
theorem claim_C3_witness :
    Product.create (str "p1") (str "") (str "d") (-5) (-3) (str "") (str "c") 0 =
      .error (.jsError .productNameEmpty) ∧
    Product.create (str "p1") (str "Mouse") (str "d") (-5) (-3) (str "") (str "c") 0 =
      .error (.jsError .productPriceNegative) ∧
    Product.create (str "p1") (str "Mouse") (str "d") 5 (-3) (str "") (str "c") 0 =
      .error (.jsError .productStockNegative) ∧
    Product.create (str "p1") (str "Mouse") (str "d") 5 3 (str " ") (str "c") 0 =
      .error (.jsError .productSkuEmpty) := by
  refine ⟨?_, ?_, ?_, ?_⟩
  · exact claim_C3.1 _ _ _ _ _ _ _ _ (by decide)
  · exact claim_C3.2.1 _ _ _ _ _ _ _ _ (by decide) (by norm_num)
  · exact claim_C3.2.2.1 _ _ _ _ _ _ _ _ (by decide) (by norm_num) (by omega)
  · exact claim_C3.2.2.2.1 _ _ _ _ _ _ _ _ (by decide) (by norm_num) (by omega)
      (by decide)

/-- C5: `incrementStock(n)` on a product with non-negative stock `S`
and `n > 0` returns a new `Product` value equal to the original except
that `stock = S + n` and `updatedAt` is refreshed; the original value
is untouched (the embedding is pure, mirroring the source's
construct-a-new-instance pattern). -/
theorem claim_C5 (p : Product) (n : Int) (now : Int)
    (hstock : 0 ≤ p.stock) (hn : 0 < n) :
    p.incrementStock n now =
      .ok { p with stock := p.stock + n, updatedAt := now } := by
  unfold Product.incrementStock Product.updateStock
  rw [if_neg (by omega), if_neg (by omega)]

/-- C5 witness: stock 5 incremented by 3 yields stock 8 with every
other field unchanged. -/
theorem claim_C5_witness :
    (Product.mk (str "p1") (str "Mouse") (str "d") 20 5 (str "MSE-001")
        (str "cat") true 0 0).incrementStock 3 7 =
      .ok (Product.mk (str "p1") (str "Mouse") (str "d") 20 8 (str "MSE-001")
        (str "cat") true 0 7) :=
  claim_C5 _ 3 7 (by decide) (by decide)

/-- C10: `Product.create` does not constrain `categoryId` — any value,
including the empty string, is accepted and stored untrimmed — whereas
`updateCategory` rejects an empty or whitespace-only category and trims
the stored value. -/
theorem claim_C10 (i nm d : Str) (pr : ℚ) (st : Int) (sk : Str)
    (cat : Str) (t t' : Int) (p : Product) (c c' : Str)
    (hnm : (jsTrim nm).isEmpty = false) (hpr : 0 ≤ pr) (hst : 0 ≤ st)
    (hsk : (jsTrim sk).isEmpty = false)
    (hc : (jsTrim c).isEmpty = true) (hc' : (jsTrim c').isEmpty = false) :
    Product.create i nm d pr st sk cat t =
      .ok { id := i, name := jsTrim nm, description := jsTrim d,
            price := pr, stock := st, sku := jsToUpper (jsTrim sk),
            categoryId := cat, isActive := true, createdAt := t,
            updatedAt := t } ∧
    p.updateCategory c t' = .error (.jsError .categoryIdEmpty) ∧
    p.updateCategory c' t' =
      .ok { p with categoryId := jsTrim c', updatedAt := t' } := by
  refine ⟨?_, ?_, ?_⟩
  · rw [Product.create,
      if_neg (by rw [isEmpty_of_jsTrim hnm, hnm]; simp),
      if_neg (not_lt.mpr hpr), if_neg (by omega),
      if_neg (by rw [isEmpty_of_jsTrim hsk, hsk]; simp)]
  · rw [Product.updateCategory, if_pos (by simp [hc])]
  · rw [Product.updateCategory,
      if_neg (by rw [isEmpty_of_jsTrim hc', hc']; simp)]

/-- C10 witness: creation succeeds with an empty `categoryId` stored
as-is; `updateCategory` rejects a whitespace-only category and trims a
padded one. -/
theorem claim_C10_witness :
    Product.create (str "p1") (str "Mouse") (str "d") 20 5 (str "mse-001")
        (str "") 0 =
      .ok (Product.mk (str "p1") (str "Mouse") (str "d") 20 5
        (str "MSE-001") (str "") true 0 0) ∧
    (Product.mk (str "p1") (str "Mouse") (str "d") 20 5 (str "MSE-001")
        (str "") true 0 0).updateCategory (str "  ") 3 =
      .error (.jsError .categoryIdEmpty) ∧
    (Product.mk (str "p1") (str "Mouse") (str "d") 20 5 (str "MSE-001")
        (str "") true 0 0).updateCategory (str " electronics ") 3 =
      .ok (Product.mk (str "p1") (str "Mouse") (str "d") 20 5
        (str "MSE-001") (str "electronics") true 0 3) := by
  have h := claim_C10 (str "p1") (str "Mouse") (str "d") 20 5 (str "mse-001")
    (str "") 0 3
    (Product.mk (str "p1") (str "Mouse") (str "d") 20 5 (str "MSE-001")
      (str "") true 0 0)
    (str "  ") (str " electronics ")
    (by decide) (by norm_num) (by omega) (by decide) (by decide) (by decide)
  refine ⟨h.1.trans (by decide), h.2.1, h.2.2.trans (by decide)⟩

/-- C1: when a decrement request exceeds the available stock, the
UpdateStock use case fails before `repository.updateStock` is ever
invoked (the trace stops at `findById`) — but the error that surfaces
is the entity's plain `Error('Insufficient stock')` (`jsError
.insufficientStockMsg`), not the `InsufficientStockError` class that
the use case's own catch block and the controller test for. -/
theorem claim_C1 (db : RepoDB) (input : UpdateStockInput) (p : Product)
    (now : Int) (hfind : repoFindById db input.productId = some p)
    (hop : input.operation = .decrement) (hstock : 0 ≤ p.stock)
    (hlt : p.stock < input.quantity) :
    updateStockExec db input now =
      (.error (.jsError .insufficientStockMsg),
       [TraceEv.findById input.productId]) ∧
    (∀ i s, TraceEv.repoUpdateStock i s ∉ (updateStockExec db input now).2) ∧
    (∀ i r a, (updateStockExec db input now).1 ≠
      .error (.insufficientStock i r a)) := by
  have hdec : p.decrementStock input.quantity now =
      .error (.jsError .insufficientStockMsg) := by
    simp only [Product.decrementStock]
    rw [if_neg (by omega), if_pos (by omega)]
  have h1 : updateStockExec db input now =
      (.error (.jsError .insufficientStockMsg),
       [TraceEv.findById input.productId]) := by
    simp only [updateStockExec, hfind, hop]
    rw [if_neg (by omega)]
    simp only [hdec]
  refine ⟨h1, ?_, ?_⟩
  · intro i s
    rw [h1]
    simp
  · intro i r a
    rw [h1]
    simp

/-- C1 witness: a product with stock 5 and a decrement of 10. -/
theorem claim_C1_witness :
    updateStockExec
        [Product.mk (str "p1") (str "Mouse") (str "d") 20 5 (str "MSE-001")
          (str "cat") true 0 0]
        ⟨str "p1", 10, .decrement⟩ 9 =
      (.error (.jsError .insufficientStockMsg),
       [TraceEv.findById (str "p1")]) ∧
    TraceEv.repoUpdateStock (str "p1") 0 ∉
      (updateStockExec
        [Product.mk (str "p1") (str "Mouse") (str "d") 20 5 (str "MSE-001")
          (str "cat") true 0 0]
        ⟨str "p1", 10, .decrement⟩ 9).2 := by
  have h := claim_C1
    [Product.mk (str "p1") (str "Mouse") (str "d") 20 5 (str "MSE-001")
      (str "cat") true 0 0]
    ⟨str "p1", 10, .decrement⟩
    (Product.mk (str "p1") (str "Mouse") (str "d") 20 5 (str "MSE-001")
      (str "cat") true 0 0)
    9 (by decide) rfl (by decide) (by decide)
  exact ⟨h.1, h.2.1 (str "p1") 0⟩

/-- C4: a create request whose SKU already exists fails with
`DuplicateProductCodeError` straight after the `existsBySku` check: the
trace records only that check, so neither `Product.create` nor
`repository.create` is ever reached. -/
theorem claim_C4 (db : RepoDB) (input : CreateProductInput) (newId : Str)
    (now : Int) (hdup : repoExistsBySku db input.sku = true) :
    createProductExec db input newId now =
      (.error (.duplicateProductCode input.sku),
       [TraceEv.existsBySku input.sku]) ∧
    (∀ i, TraceEv.productCreate i ∉ (createProductExec db input newId now).2) ∧
    (∀ i, TraceEv.repoCreate i ∉ (createProductExec db input newId now).2) := by
  have h1 : createProductExec db input newId now =
      (.error (.duplicateProductCode input.sku),
       [TraceEv.existsBySku input.sku]) := by
    simp only [createProductExec, hdup]
    rfl
  refine ⟨h1, ?_, ?_⟩
  · intro i
    rw [h1]
    simp
  · intro i
    rw [h1]
    simp

/-- C4 witness: with `ABC-123` already stored, a second create using
SKU `abc-123` (match is on the uppercased SKU) is rejected without
constructing an entity. -/
theorem claim_C4_witness :
    createProductExec
        [Product.mk (str "p0") (str "First") (str "d") 10 1 (str "ABC-123")
          (str "cat") true 0 0]
        ⟨str "Second", str "d2", 20, 5, str "abc-123", str "cat"⟩
        (str "p1") 3 =
      (.error (.duplicateProductCode (str "abc-123")),
       [TraceEv.existsBySku (str "abc-123")]) ∧
    TraceEv.productCreate (str "p1") ∉
      (createProductExec
        [Product.mk (str "p0") (str "First") (str "d") 10 1 (str "ABC-123")
          (str "cat") true 0 0]
        ⟨str "Second", str "d2", 20, 5, str "abc-123", str "cat"⟩
        (str "p1") 3).2 := by
  have h := claim_C4
    [Product.mk (str "p0") (str "First") (str "d") 10 1 (str "ABC-123")
      (str "cat") true 0 0]
    ⟨str "Second", str "d2", 20, 5, str "abc-123", str "cat"⟩
    (str "p1") 3 (by decide)
  exact ⟨h.1, h.2.1 (str "p1")⟩

theorem exceptBind_ok {α β : Type} {x : Except DomainErr α}
    {f : α → Except DomainErr β} {b : β} (h : x >>= f = .ok b) :
    ∃ a, x = .ok a ∧ f a = .ok b := by
  cases x with
  | error e => simp [Bind.bind, Except.bind] at h
  | ok a => exact ⟨a, rfl, by simpa [Bind.bind, Except.bind] using h⟩

theorem updateName_ok {p p' : Product} {nm : Str} {now : Int}
    (h : p.updateName nm now = .ok p') :
    p' = { p with name := jsTrim nm, updatedAt := now } := by
  rw [Product.updateName] at h
  split at h
  · cases h
  · exact (Except.ok.inj h).symm

theorem updateDescription_ok {p p' : Product} {ds : Str} {now : Int}
    (h : p.updateDescription ds now = .ok p') :
    p' = { p with description := jsTrim ds, updatedAt := now } := by
  rw [Product.updateDescription] at h
  exact (Except.ok.inj h).symm

theorem updatePrice_ok {p p' : Product} {pr : ℚ} {now : Int}
    (h : p.updatePrice pr now = .ok p') :
    p' = { p with price := pr, updatedAt := now } := by
  rw [Product.updatePrice] at h
  split at h
  · cases h
  · exact (Except.ok.inj h).symm

theorem updateStock_ok {p p' : Product} {st : Int} {now : Int}
    (h : p.updateStock st now = .ok p') :
    p' = { p with stock := st, updatedAt := now } := by
  rw [Product.updateStock] at h
  split at h
  · cases h
  · exact (Except.ok.inj h).symm

theorem updateCategory_ok {p p' : Product} {c : Str} {now : Int}
    (h : p.updateCategory c now = .ok p') :
    p' = { p with categoryId := jsTrim c, updatedAt := now } := by
  rw [Product.updateCategory] at h
  split at h
  · cases h
  · exact (Except.ok.inj h).symm

/-- Characterisation of a successful pass through the field-application
chain of `UpdateProductUseCase.execute`: each present field is applied
(trimmed where the entity trims), each absent field keeps its prior
value, and `isActive`, `sku`, `id`, `createdAt` are never touched — in
particular a present `isActive` in the input has no effect. -/
theorem applyUpdateData_ok {p p' : Product} {d : UpdateData} {now : Int}
    (h : applyUpdateData p d now = .ok p') :
    p'.name = (match d.name with
      | some nm => jsTrim nm | none => p.name) ∧
    p'.description = (match d.description with
      | some ds => jsTrim ds | none => p.description) ∧
    p'.price = (match d.price with
      | some pr => pr | none => p.price) ∧
    p'.stock = (match d.stock with
      | some st => st | none => p.stock) ∧
    p'.categoryId = (match d.categoryId with
      | some c => jsTrim c | none => p.categoryId) ∧
    p'.isActive = p.isActive ∧ p'.sku = p.sku ∧ p'.id = p.id ∧
    p'.createdAt = p.createdAt := by
  rw [applyUpdateData] at h
  obtain ⟨p1, h1, h⟩ := exceptBind_ok h
  obtain ⟨p2, h2, h⟩ := exceptBind_ok h
  obtain ⟨p3, h3, h⟩ := exceptBind_ok h
  obtain ⟨p4, h4, h⟩ := exceptBind_ok h
  obtain ⟨p5, h5, h⟩ := exceptBind_ok h
  have hfin : p5 = p' := Except.ok.inj h
  subst hfin
  have e1 : p1 = (match d.name with
      | some nm => { p with name := jsTrim nm, updatedAt := now }
      | none => p) := by
    cases hx : d.name with
    | some nm => rw [hx] at h1; exact updateName_ok h1
    | none => rw [hx] at h1; exact (Except.ok.inj h1).symm
  have e2 : p2 = (match d.description with
      | some ds => { p1 with description := jsTrim ds, updatedAt := now }
      | none => p1) := by
    cases hx : d.description with
    | some ds => rw [hx] at h2; exact updateDescription_ok h2
    | none => rw [hx] at h2; exact (Except.ok.inj h2).symm
  have e3 : p3 = (match d.price with
      | some pr => { p2 with price := pr, updatedAt := now }
      | none => p2) := by
    cases hx : d.price with
    | some pr => rw [hx] at h3; exact updatePrice_ok h3
    | none => rw [hx] at h3; exact (Except.ok.inj h3).symm
  have e4 : p4 = (match d.stock with
      | some st => { p3 with stock := st, updatedAt := now }
      | none => p3) := by
    cases hx : d.stock with
    | some st => rw [hx] at h4; exact updateStock_ok h4
    | none => rw [hx] at h4; exact (Except.ok.inj h4).symm
  have e5 : p5 = (match d.categoryId with
      | some c => { p4 with categoryId := jsTrim c, updatedAt := now }
      | none => p4) := by
    cases hx : d.categoryId with
    | some c => rw [hx] at h5; exact updateCategory_ok h5
    | none => rw [hx] at h5; exact (Except.ok.inj h5).symm
  refine ⟨?_, ?_, ?_, ?_, ?_, ?_, ?_, ?_, ?_⟩
  · rw [e5]
    cases d.categoryId <;> simp <;> rw [e4] <;>
      cases d.stock <;> simp <;> rw [e3] <;>
      cases d.price <;> simp <;> rw [e2] <;>
      cases d.description <;> simp <;> rw [e1] <;>
      cases d.name <;> simp
  · rw [e5]
    cases d.categoryId <;> simp <;> rw [e4] <;>
      cases d.stock <;> simp <;> rw [e3] <;>
      cases d.price <;> simp <;> rw [e2] <;>
      cases d.description <;> simp <;> rw [e1] <;>
      cases d.name <;> simp
  · rw [e5]
    cases d.categoryId <;> simp <;> rw [e4] <;>
      cases d.stock <;> simp <;> rw [e3] <;>
      cases d.price <;> simp <;> rw [e2] <;>
      cases d.description <;> simp <;> rw [e1] <;>
      cases d.name <;> simp
  · rw [e5]
    cases d.categoryId <;> simp <;> rw [e4] <;>
      cases d.stock <;> simp <;> rw [e3] <;>
      cases d.price <;> simp <;> rw [e2] <;>
      cases d.description <;> simp <;> rw [e1] <;>
      cases d.name <;> simp
  · rw [e5]
    cases d.categoryId <;> simp <;> rw [e4] <;>
      cases d.stock <;> simp <;> rw [e3] <;>
      cases d.price <;> simp <;> rw [e2] <;>
      cases d.description <;> simp <;> rw [e1] <;>
      cases d.name <;> simp
  · rw [e5]
    cases d.categoryId <;> simp <;> rw [e4] <;>
      cases d.stock <;> simp <;> rw [e3] <;>
      cases d.price <;> simp <;> rw [e2] <;>
      cases d.description <;> simp <;> rw [e1] <;>
      cases d.name <;> simp
  · rw [e5]
    cases d.categoryId <;> simp <;> rw [e4] <;>
      cases d.stock <;> simp <;> rw [e3] <;>
      cases d.price <;> simp <;> rw [e2] <;>
      cases d.description <;> simp <;> rw [e1] <;>
      cases d.name <;> simp
  · rw [e5]
    cases d.categoryId <;> simp <;> rw [e4] <;>
      cases d.stock <;> simp <;> rw [e3] <;>
      cases d.price <;> simp <;> rw [e2] <;>
      cases d.description <;> simp <;> rw [e1] <;>
      cases d.name <;> simp
  · rw [e5]
    cases d.categoryId <;> simp <;> rw [e4] <;>
      cases d.stock <;> simp <;> rw [e3] <;>
      cases d.price <;> simp <;> rw [e2] <;>
      cases d.description <;> simp <;> rw [e1] <;>
      cases d.name <;> simp

/-- C2: in a successful UpdateProduct run, each of name, description,
price, stock, categoryId is applied when present and kept when absent —
but the returned (and persisted) product's `isActive` always equals the
prior value: the `isActive` field declared in the update contract is
never applied by `UpdateProductUseCase.execute`, contradicting the
claim's "a present isActive value is applied". -/
theorem claim_C2 (db : RepoDB) (input : UpdateProductInput) (p : Product)
    (now : Int) (dto : ProductResponseDTO) (db' : RepoDB)
    (hfind : repoFindById db input.id = some p)
    (hok : (updateProductExec db input now).1 = .ok (dto, db')) :
    dto.isActive = p.isActive ∧
    dto.name = (match input.data.name with
      | some nm => jsTrim nm | none => p.name) ∧
    dto.description = (match input.data.description with
      | some ds => jsTrim ds | none => p.description) ∧
    dto.price = (match input.data.price with
      | some pr => pr | none => p.price) ∧
    dto.stock = (match input.data.stock with
      | some st => st | none => p.stock) ∧
    dto.categoryId = (match input.data.categoryId with
      | some c => jsTrim c | none => p.categoryId) ∧
    dto.sku = p.sku := by
  simp only [updateProductExec, hfind] at hok
  cases happ : applyUpdateData p input.data now with
  | error e => rw [happ] at hok; cases hok
  | ok u =>
      simp only [happ] at hok
      cases hrep : repoUpdate db input.id u now with
      | error e => simp only [hrep] at hok; cases hok
      | ok pr =>
          obtain ⟨sp, db2⟩ := pr
          simp only [hrep] at hok
          have hdto : dto = mapToDTO sp := by
            have := Except.ok.inj hok
            exact (congrArg Prod.fst this).symm
          rw [repoUpdate, hfind] at hrep
          simp only [Except.ok.injEq, Prod.mk.injEq] at hrep
          obtain ⟨hsp, -⟩ := hrep
          obtain ⟨hn, hd, hp2, hs, hc, hact, hsku, -, -⟩ :=
            applyUpdateData_ok happ
          rw [hdto]
          simp only [mapToDTO]
          rw [← hsp]
          exact ⟨hact, hn, hd, hp2, hs, hc, rfl⟩

/-- C2 witness at the failing input: the stored product is active, the
update request carries `isActive: false` (and a new name); the returned
product has the new name but is still active. -/
theorem claim_C2_witness :
    (updateProductExec
        [Product.mk (str "p1") (str "Mouse") (str "d") 20 5
          (str "MSE-001") (str "cat") true 0 0]
        ⟨str "p1", { name := some (str "Trackball"),
                     isActive := some false }⟩ 9).1 =
      .ok (ProductResponseDTO.mk (str "p1") (str "Trackball") (str "d")
             (str "MSE-001") 20 5 (str "cat") true true true 0 9,
           [Product.mk (str "p1") (str "Trackball") (str "d") 20 5
             (str "MSE-001") (str "cat") true 0 9]) ∧
    (ProductResponseDTO.mk (str "p1") (str "Trackball") (str "d")
      (str "MSE-001") 20 5 (str "cat") true true true 0 9).isActive = true := by
  have hx : (updateProductExec
      [Product.mk (str "p1") (str "Mouse") (str "d") 20 5
        (str "MSE-001") (str "cat") true 0 0]
      ⟨str "p1", { name := some (str "Trackball"),
                   isActive := some false }⟩ 9).1 =
      .ok (ProductResponseDTO.mk (str "p1") (str "Trackball") (str "d")
             (str "MSE-001") 20 5 (str "cat") true true true 0 9,
           [Product.mk (str "p1") (str "Trackball") (str "d") 20 5
             (str "MSE-001") (str "cat") true 0 9]) := by decide
  refine ⟨hx, ?_⟩
  exact (claim_C2
    [Product.mk (str "p1") (str "Mouse") (str "d") 20 5
      (str "MSE-001") (str "cat") true 0 0]
    ⟨str "p1", { name := some (str "Trackball"), isActive := some false }⟩
    (Product.mk (str "p1") (str "Mouse") (str "d") 20 5
      (str "MSE-001") (str "cat") true 0 0)
    9 _ _ (by decide) hx).1
